import Mathlib

/-!
Verification development for the moobot listing-notification bot.

We give a shallow embedding of the command-routing layer and the
reaction-handler registry of `src/moobot/discord/discord_bot.py`, of the
schema migration `src/migrations/04_switch_to_plugins.py`, and (from the
specification, since its code is not part of this excerpt) of the
listing Matching Engine, and prove the behavioural properties claimed in
the specification.
-/

namespace Moobot

/-! ### Command router (`discord_bot.py`, `DiscordBot`)

Handlers are identified by natural numbers.  A compiled regular
expression together with `Pattern.match` under `re.IGNORECASE` is
embedded as its matching function `String → Bool` (true iff the pattern
matches the command from the start of the string); the registration
dictionary `_discord_bot_commands` (insertion-ordered in Python) is
embedded as the list of (matcher, handler id) pairs in registration
order.  A handler's behaviour when invoked (return normally, raise
`asyncio.CancelledError`, or raise another exception carrying a
traceback string) is a parameter `behave : Nat → HOutcome`.
The observable actions of `on_message` (which handler coroutines are
awaited, which texts are sent to `message.channel`) are collected in an
effect trace, together with how the call ends (returns, propagates a
cancellation, re-raises an exception). -/

/-- How a handler invocation ends: normal return, `asyncio.CancelledError`,
or some other exception carrying the traceback text. -/
inductive HOutcome where
  | ok
  | cancelled
  | error (tb : String)
deriving DecidableEq, Repr

/-- Observable effects of `on_message`: awaiting a command handler, or
sending a text to the originating channel. -/
inductive Effect where
  | invoked (h : Nat)
  | sent (text : String)
deriving DecidableEq, Repr

/-- How `on_message` itself ends. -/
inductive Outcome where
  | returned
  | raisedCancel
  | raisedExn
deriving DecidableEq, Repr

/-- Python `s[-n:]`: the last `n` characters of `s` (all of `s` when it is
shorter than `n`). -/
def pyTail (n : Nat) (s : String) : String :=
  ⟨s.data.drop (s.data.length - n)⟩

/-- The error text sent by `on_message` when a handler raises: an apology
mentioning the author, followed by the last 1900 characters of
`traceback.format_exc()` in a code block. -/
def errText (mention tb : String) : String :=
  "Sorry " ++ mention ++ "! Something went wrong while running your" ++
    " command.```" ++ pyTail 1900 tb ++ "```"

/-- The registration table: matcher functions paired with handler ids, in
registration order (`_discord_bot_commands`). -/
abbrev Handlers := List ((String → Bool) × Nat)

/-- The `for pattern in _discord_bot_commands:` loop of `on_message`
(lines 77–91): find the first registered pattern matching the command,
await its handler inside `try/except` (re-raising `CancelledError`
untouched; on any other exception sending the truncated-traceback error
message to the channel and re-raising), and `break`; if no pattern
matches, fall through and return. -/
def routeCommand (handlers : Handlers) (behave : Nat → HOutcome)
    (mention : String) (cmd : String) : List Effect × Outcome :=
  match handlers with
  | [] => ([], .returned)
  | (pat, h) :: rest =>
    if pat cmd then
      match behave h with
      | .ok => ([.invoked h], .returned)
      | .cancelled => ([.invoked h], .raisedCancel)
      | .error tb => ([.invoked h, .sent (errText mention tb)], .raisedExn)
    else routeCommand rest behave mention cmd

/-- A Discord message, as far as the bot inspects it: content, the
author's user id, and whether the message mentions the bot's user
(`client.user.mentioned_in(message)`). -/
structure Message where
  content : String
  author : Nat
  mentionsBot : Bool
deriving DecidableEq, Repr

/-- The bot state `on_message` consults: `client.user` (None before
login) and the command marker string (`command_prefix`, default `"$"`,
may be None). -/
structure Bot where
  clientUser : Option Nat
  cmdPre : Option String
deriving DecidableEq, Repr

/-- `message.author.mention`: the string `<@id>`. -/
def mentionStr (uid : Nat) : String :=
  "<@" ++ toString uid ++ ">"

/-- Match the mention regex `<@!?uid>` at the head of the character list;
on success return the remaining characters. -/
def mentionAt (uid : Nat) (cs : List Char) : Option (List Char) :=
  let idStr := toString uid
  let p1 := ("<@" ++ idStr ++ ">").data
  let p2 := ("<@!" ++ idStr ++ ">").data
  if p1.isPrefixOf cs then some (cs.drop p1.length)
  else if p2.isPrefixOf cs then some (cs.drop p2.length)
  else none

/-- `re.sub(mention_regex, "", content, 1)`: delete the first occurrence
of the bot mention. -/
def subMentionOnce (uid : Nat) : List Char → List Char
  | [] => []
  | c :: rest =>
    match mentionAt uid (c :: rest) with
    | some remaining => remaining
    | none => c :: subMentionOnce uid rest

/-- `DiscordBot.get_command_from_message`: a mention of the bot turns the
message into a command (mention stripped, whitespace trimmed); otherwise
a message starting with the command marker is a command (marker
stripped, trimmed); otherwise None. -/
def getCommandFromMessage (bot : Bot) (msg : Message) : Option String :=
  match bot.clientUser with
  | some uid =>
    if msg.mentionsBot then
      some (String.mk (subMentionOnce uid msg.content.data)).trim
    else
      match bot.cmdPre with
      | some p =>
        if p.isPrefixOf msg.content then some ((msg.content.drop p.length).trim)
        else none
      | none => none
  | none =>
    match bot.cmdPre with
    | some p =>
      if p.isPrefixOf msg.content then some ((msg.content.drop p.length).trim)
      else none
    | none => none

/-- `DiscordBot.on_message`: if the bot itself sent the message, do
nothing; otherwise extract the command (None means do nothing) and run
the routing loop. -/
def onMessage (bot : Bot) (handlers : Handlers) (behave : Nat → HOutcome)
    (msg : Message) : List Effect × Outcome :=
  if bot.clientUser = some msg.author then ([], .returned)
  else
    match getCommandFromMessage bot msg with
    | none => ([], .returned)
    | some cmd => routeCommand handlers behave (mentionStr msg.author) cmd

/-- Matching function of a compiled pattern `^lit` (a literal after the
start anchor) under `re.IGNORECASE`, as used by `Pattern.match`: the
command starts, case-insensitively, with `lit`.  (`re.match` anchors at
the start of the string, so the leading `^` is stripped.) -/
def reMatchCI (pat : String) (cmd : String) : Bool :=
  let lit := if ("^".data).isPrefixOf pat.data then pat.data.drop 1
             else pat.data
  (lit.map Char.toLower).isPrefixOf (cmd.data.map Char.toLower)

/-- The handler ids invoked during a routing run, in order. -/
def invokedOf (effects : List Effect) : List Nat :=
  effects.filterMap fun e =>
    match e with
    | .invoked h => some h
    | .sent _ => none

/-- The texts sent during a routing run, in order. -/
def sentOf (effects : List Effect) : List String :=
  effects.filterMap fun e =>
    match e with
    | .invoked _ => none
    | .sent t => some t

/-! ### Python-dict operations on association lists

`dict[int, ReactionHandler]` in `DiscordBot.__init__` and the
`json.loads` objects in the migration are Python dicts: insertion-ordered
association lists with unique keys.  `setKey` is `d[k] = v` (replace in
place if present, else append), `delKey` is `del d[k]`, `hasKey` is
`k in d`, `getKey?` is `d[k]`. -/

/-- `k in d` on a Python dict. -/
def hasKey {κ α : Type} [BEq κ] (d : List (κ × α)) (k : κ) : Bool :=
  d.any fun p => p.1 == k

/-- `del d[k]` on a Python dict. -/
def delKey {κ α : Type} [BEq κ] (d : List (κ × α)) (k : κ) : List (κ × α) :=
  d.filter fun p => !(p.1 == k)

/-- `d[k] = v` on a Python dict: replace the value in place when the key
exists, else append the new entry. -/
def setKey {κ α : Type} [BEq κ] (d : List (κ × α)) (k : κ) (v : α) :
    List (κ × α) :=
  if hasKey d k then d.map fun p => if p.1 == k then (k, v) else p
  else d ++ [(k, v)]

/-- `d[k]` (as an `Option`, `none` for a `KeyError`). -/
def getKey? {κ α : Type} [BEq κ] (d : List (κ × α)) (k : κ) : Option α :=
  (d.find? fun p => p.1 == k).map (·.2)

/-! ### Reaction handler registry (`discord_bot.py`, `on_reaction_change`)

`self.reaction_handlers : dict[int, ReactionHandler]` maps a message id
to a handler; handlers are identified by naturals, reactors by their
user id. -/

/-- `ReactionAction` (`discord_bot.py`). -/
inductive ReactionAction where
  | added
  | removed
deriving DecidableEq, Repr

/-- A reaction, as far as `on_reaction_change` inspects it: the id of the
message it sits on, and the emoji. -/
structure Reaction where
  messageId : Nat
  emoji : String
deriving DecidableEq, Repr

/-- The registry `self.reaction_handlers`: message id → handler id, a
Python dict. -/
abbrev Registry := List (Nat × Nat)

/-- Observable effect of `on_reaction_change`: awaiting a reaction
handler with the arguments `(action, reaction, user)`. -/
inductive REffect where
  | rinvoked (h : Nat) (a : ReactionAction) (r : Reaction) (user : Nat)
deriving DecidableEq, Repr

/-- Binding a handler to a message id: dict assignment
`self.reaction_handlers[messageId] = handler`. -/
def bind (reg : Registry) (messageId handler : Nat) : Registry :=
  setKey reg messageId handler

/-- `DiscordBot.on_reaction_change`: if a handler is registered for the
reaction's message id, await it with `(action, reaction, user)`;
otherwise do nothing. -/
def onReactionChange (reg : Registry) (a : ReactionAction) (r : Reaction)
    (user : Nat) : List REffect :=
  if hasKey reg r.messageId then
    match getKey? reg r.messageId with
    | some h => [.rinvoked h a r user]
    | none => []
  else []

/-! ### Schema migration (`src/migrations/04_switch_to_plugins.py`)

JSON values as parsed by `json.loads`; objects are Python dicts. -/

/-- A JSON value. -/
inductive JVal where
  | null
  | bool (b : Bool)
  | num (n : Int)
  | str (s : String)
  | arr (elems : List JVal)
  | obj (fields : List (String × JVal))

/-- A JSON object: a Python dict from string keys to values. -/
abbrev Obj := List (String × JVal)

/-- The plugin path the migration writes. -/
def craigslistPluginPath : String :=
  "plugins.craigslist.plugin:CraigslistPlugin"

/-- The required shape of a plugin path per the persisted config schema:
a namespace and a symbol separated by a colon, both nonempty. -/
def pluginPathShape (s : String) : Bool :=
  match s.data.splitOn ':' with
  | [namesp, symb] => !namesp.isEmpty && !symb.isEmpty
  | _ => false

/-- The per-spec transformation both `update_notifiers` and
`update_listings` apply to a search-spec dict: when the prior-schema key
`"source"` is present, delete it and assign
`spec["plugin_path"] = "plugins.craigslist.plugin:CraigslistPlugin"`,
reporting that an update happened; otherwise leave the dict untouched
(`continue`). -/
def migrateSpec (spec : Obj) : Obj × Bool :=
  if hasKey spec "source" then
    (setKey (delKey spec "source") "plugin_path" (.str craigslistPluginPath),
      true)
  else (spec, false)

/-- One entry of a notifier's `active_searches` list: the `"spec"` dict
the migration rewrites, plus the search object's other keys, which the
migration never touches. -/
structure Search where
  spec : Obj
  rest : Obj

/-- A `DbDiscordNotifier.config_json` after `json.loads`: the
`active_searches` list plus the config's other keys. -/
structure NotifierConfig where
  activeSearches : List Search
  rest : Obj

/-- A `DbListing` row, as far as the migration reads it: its
`search_spec_json` after `json.loads`. -/
structure DbListing where
  searchSpec : Obj

/-- The body of the inner loop of `update_notifiers` on one search:
rewrite its spec, counting 1 when it was updated. -/
def updateSearch (s : Search) : Search × Nat :=
  let r := migrateSpec s.spec
  (⟨r.1, s.rest⟩, if r.2 then 1 else 0)

/-- `update_notifiers` on one notifier row: rewrite every search of
`active_searches`, returning the new config and how many searches were
updated. -/
def updateNotifier (n : NotifierConfig) : NotifierConfig × Nat :=
  let rs := n.activeSearches.map updateSearch
  (⟨rs.map (·.1), n.rest⟩, (rs.map (·.2)).sum)

/-- `update_notifiers`: rewrite every notifier's config and count the
updated searches (the printed `updated_count`). -/
def updateNotifiers (ns : List NotifierConfig) : List NotifierConfig × Nat :=
  let rs := ns.map updateNotifier
  (rs.map (·.1), (rs.map (·.2)).sum)

/-- `update_listings`: rewrite every listing's stored search spec and
count the updated listings (the printed `updated_listing_count`). -/
def updateListings (ls : List DbListing) : List DbListing × Nat :=
  let rs := ls.map fun l =>
    let r := migrateSpec l.searchSpec
    (DbListing.mk r.1, if r.2 then 1 else 0)
  (rs.map (·.1), (rs.map (·.2)).sum)

/-! ### Matching Engine

The Matching Engine's code is not part of this excerpt (only the routing
layer and the migration are); it is modelled from §4.2 of the
specification. -/

/-- A search specification: filter criteria plus the plugin path. -/
structure SearchSpec where
  criteria : List (String × String)
  pluginPath : String
deriving DecidableEq, Repr

/-- A raw listing as returned by a scraper plugin; a malformed item has
no source-native identifier. -/
structure RawListing where
  sourceId : Option String
  attrs : List (String × String)
deriving DecidableEq, Repr

/-- A listing record, bound to the spec it was matched under. -/
structure Listing where
  spec : SearchSpec
  sourceId : String
  attrs : List (String × String)
deriving DecidableEq, Repr

/-- State accumulated while matching a batch: the novel listings in
order, the seen-set, and the count of skipped malformed items. -/
structure MatchState where
  novel : List Listing
  seen : List String
  skipped : Nat
deriving DecidableEq, Repr

/-- Modelled from the spec: one step of the Matching Engine algorithm of
§4.2 on a single raw listing — a raw listing with no source-native
identifier is dropped and counted as skipped; an identifier present in
the seen-set is skipped; otherwise a `Listing` bound to the spec is
appended to the result and the identifier is added to the seen-set, so
duplicates within the same batch are also suppressed. -/
def matchStep (spec : SearchSpec) (st : MatchState) (r : RawListing) :
    MatchState :=
  match r.sourceId with
  | none => { st with skipped := st.skipped + 1 }
  | some sid =>
    if st.seen.contains sid then st
    else
      { st with novel := st.novel ++ [⟨spec, sid, r.attrs⟩],
                seen := sid :: st.seen }

/-- Modelled from the spec: the Matching Engine
`match(spec, rawListings, seenIds)` of §4.2 — iterate the raw listings
in the order returned, producing the novel subset, the updated seen-set
and the malformed-skip count. -/
def matchEngine (spec : SearchSpec) (raw : List RawListing)
    (seen : List String) : MatchState :=
  raw.foldl (matchStep spec) ⟨[], seen, 0⟩

/-! ## Helper lemmas -/

/-- Unfolding lemma for `pyTail`. -/
theorem pyTail_data (n : Nat) (s : String) :
    (pyTail n s).data = s.data.drop (s.data.length - n) := rfl

/-- When the registration table has a first matching pattern, the routing
loop runs exactly that pattern's handler, with the outcome dictated by the
handler's behaviour. -/
theorem routeCommand_of_find_some (handlers : Handlers)
    (behave : Nat → HOutcome) (mention cmd : String) (pat : String → Bool)
    (h : Nat) (hfind : handlers.find? (fun p => p.1 cmd) = some (pat, h)) :
    routeCommand handlers behave mention cmd
      = match behave h with
        | .ok => ([.invoked h], .returned)
        | .cancelled => ([.invoked h], .raisedCancel)
        | .error tb =>
          ([.invoked h, .sent (errText mention tb)], .raisedExn) := by
  induction handlers with
  | nil => simp [List.find?] at hfind
  | cons q rest ih =>
    obtain ⟨p0, h0⟩ := q
    cases hp : p0 cmd with
    | true =>
      simp only [List.find?_cons, hp] at hfind
      obtain ⟨rfl, rfl⟩ : p0 = pat ∧ h0 = h := by
        simpa using hfind
      simp [routeCommand, hp]
    | false =>
      simp only [List.find?_cons, hp] at hfind
      simpa [routeCommand, hp] using ih hfind

/-- When no registered pattern matches, the routing loop falls through. -/
theorem routeCommand_of_find_none (handlers : Handlers)
    (behave : Nat → HOutcome) (mention cmd : String)
    (hfind : handlers.find? (fun p => p.1 cmd) = none) :
    routeCommand handlers behave mention cmd = ([], .returned) := by
  induction handlers with
  | nil => simp [routeCommand]
  | cons q rest ih =>
    obtain ⟨p0, h0⟩ := q
    cases hp : p0 cmd with
    | true => simp [List.find?_cons, hp] at hfind
    | false =>
      simp only [List.find?_cons, hp] at hfind
      simpa [routeCommand, hp] using ih hfind

/-- `k in d` holds exactly when `d[k]` yields a value. -/
theorem hasKey_eq_isSome_getKey {κ α : Type} [BEq κ] (d : List (κ × α))
    (k : κ) : hasKey d k = (getKey? d k).isSome := by
  induction d with
  | nil => simp [hasKey, getKey?]
  | cons p d ih =>
    cases hpk : p.1 == k with
    | true => simp [hasKey, getKey?, List.find?_cons, hpk]
    | false => simpa [hasKey, getKey?, List.find?_cons, hpk] using ih

/-- After `d[k] = v`, looking up `k` yields `v`. -/
theorem getKey_setKey_self {κ α : Type} [BEq κ] [LawfulBEq κ]
    (d : List (κ × α)) (k : κ) (v : α) :
    getKey? (setKey d k v) k = some v := by
  unfold setKey
  by_cases hk : hasKey d k = true
  · rw [if_pos hk]
    induction d with
    | nil => simp [hasKey] at hk
    | cons p d ih =>
      cases hpk : p.1 == k with
      | true => simp [getKey?, List.find?_cons, hpk]
      | false =>
        have hk' : hasKey d k = true := by
          simpa [hasKey, List.any_cons, hpk] using hk
        simpa [getKey?, List.find?_cons, hpk] using ih hk'
  · rw [if_neg hk]
    induction d with
    | nil => simp [getKey?, List.find?_cons]
    | cons p d ih =>
      have hpk : (p.1 == k) = false := by
        rcases hb : p.1 == k with _ | _
        · rfl
        · exact absurd (by simp [hasKey, List.any_cons, hb]) hk
      have hk' : ¬ hasKey d k = true := fun hc =>
        hk (by simp [hasKey, List.any_cons] at hc ⊢; exact Or.inr hc)
      simpa [getKey?, List.find?_cons, hpk] using ih hk'

/-- After `d[k] = v`, looking up any other key is unchanged. -/
theorem getKey_setKey_ne {κ α : Type} [BEq κ] [LawfulBEq κ]
    (d : List (κ × α)) (k : κ) (v : α) (k2 : κ) (hne : k2 ≠ k) :
    getKey? (setKey d k v) k2 = getKey? d k2 := by
  have hkk2 : (k == k2) = false := by
    simp [beq_eq_false_iff_ne]; exact fun h => hne h.symm
  unfold setKey
  by_cases hk : hasKey d k = true
  · rw [if_pos hk]; clear hk
    induction d with
    | nil => simp
    | cons p d ih =>
      cases hpk : p.1 == k with
      | true =>
        have hp2 : (p.1 == k2) = false := by
          have hpkeq : p.1 = k := eq_of_beq hpk
          simpa [hpkeq] using hkk2
        simpa [getKey?, -List.find?_map, List.map_cons, List.find?_cons,
          hpk, hkk2, hp2] using ih
      | false =>
        cases hp2 : p.1 == k2 with
        | true =>
          simp [getKey?, -List.find?_map, List.map_cons, List.find?_cons,
            hpk, hp2]
        | false =>
          simpa [getKey?, -List.find?_map, List.map_cons, List.find?_cons,
            hpk, hp2] using ih
  · rw [if_neg hk]; clear hk
    induction d with
    | nil => simp [getKey?, List.find?_cons, hkk2]
    | cons p d ih =>
      cases hp2 : p.1 == k2 with
      | true => simp [getKey?, List.find?_cons, hp2]
      | false => simpa [getKey?, List.find?_cons, hp2] using ih

/-- Replacing the value at a bound key leaves the key list unchanged. -/
theorem keys_replace {κ α : Type} [BEq κ] [LawfulBEq κ]
    (d : List (κ × α)) (k : κ) (v : α) :
    (d.map fun p => if p.1 == k then (k, v) else p).map Prod.fst
      = d.map Prod.fst := by
  rw [List.map_map]
  apply List.map_congr_left
  intro p _
  cases hpk : p.1 == k with
  | true => simp [hpk]; exact (eq_of_beq hpk).symm
  | false => simp [hpk]

/-- Key presence only depends on the key list. -/
theorem hasKey_eq_keys {κ α : Type} [BEq κ] (d : List (κ × α)) (k : κ) :
    hasKey d k = (d.map Prod.fst).any fun a => a == k := by
  induction d with
  | nil => rfl
  | cons p d ih =>
    simp only [hasKey, List.any_cons, List.map_cons] at ih ⊢
    rw [ih]

/-- `d[k] = v` preserves key uniqueness (in particular, a Python dict
always has at most one value per key). -/
theorem setKey_keys_nodup {κ α : Type} [BEq κ] [LawfulBEq κ]
    (d : List (κ × α)) (k : κ) (v : α)
    (hd : (d.map Prod.fst).Nodup) :
    ((setKey d k v).map Prod.fst).Nodup := by
  unfold setKey
  by_cases hk : hasKey d k = true
  · rw [if_pos hk]
    rw [keys_replace]; exact hd
  · rw [if_neg hk]
    rw [List.map_append]
    have hnotin : k ∉ d.map Prod.fst := by
      intro hmem
      apply hk
      simp only [List.mem_map] at hmem
      obtain ⟨p, hp, hpk⟩ := hmem
      simp only [hasKey, List.any_eq_true]
      exact ⟨p, hp, by simp [hpk]⟩
    refine List.Nodup.append hd (List.nodup_singleton _) ?_
    intro a ha hb
    have : a = k := by simpa using hb
    exact hnotin (this ▸ ha)

/-- `del d[k]` removes the key. -/
theorem hasKey_delKey_self {κ α : Type} [BEq κ] (d : List (κ × α))
    (k : κ) : hasKey (delKey d k) k = false := by
  induction d with
  | nil => rfl
  | cons p d ih =>
    cases hpk : p.1 == k with
    | true => simp [delKey, hasKey, List.filter_cons, hpk]
    | false => simp [delKey, hasKey, List.filter_cons, List.any_cons, hpk]

/-- `d[k2] = v` does not affect whether a different key is present. -/
theorem hasKey_setKey_of_ne {κ α : Type} [BEq κ] [LawfulBEq κ]
    (d : List (κ × α)) (k2 : κ) (v : α) (k : κ) (hne : k ≠ k2) :
    hasKey (setKey d k2 v) k = hasKey d k := by
  have hk2k : (k2 == k) = false := by
    simp [beq_eq_false_iff_ne]; exact fun h => hne h.symm
  unfold setKey
  by_cases hk : hasKey d k2 = true
  · rw [if_pos hk, hasKey_eq_keys, keys_replace, ← hasKey_eq_keys]
  · rw [if_neg hk]
    simp [hasKey, List.any_append, hk2k]

/-- The migrated spec never carries the prior-schema `"source"` key. -/
theorem migrateSpec_no_source (spec : Obj) :
    hasKey (migrateSpec spec).1 "source" = false := by
  unfold migrateSpec
  by_cases hk : hasKey spec "source" = true
  · rw [if_pos hk]
    show hasKey (setKey (delKey spec "source") "plugin_path"
      (.str craigslistPluginPath)) "source" = false
    rw [hasKey_setKey_of_ne _ _ _ _ (by decide)]
    exact hasKey_delKey_self spec "source"
  · rw [if_neg hk]
    exact Bool.not_eq_true _ ▸ (by simpa using hk)

/-- The per-spec migration step is idempotent. -/
theorem migrateSpec_idem (spec : Obj) :
    migrateSpec (migrateSpec spec).1 = ((migrateSpec spec).1, false) := by
  have h := migrateSpec_no_source spec
  generalize (migrateSpec spec).1 = X at h ⊢
  unfold migrateSpec
  rw [h]
  simp

/-- The per-search migration step is idempotent. -/
theorem updateSearch_idem (s : Search) :
    updateSearch (updateSearch s).1 = ((updateSearch s).1, 0) := by
  unfold updateSearch
  simp [migrateSpec_idem]

/-- A second pass of a per-record rewrite whose step is idempotent
changes nothing and counts zero updates. -/
theorem second_pass_fixed {β : Type} (f : β → β × Nat)
    (hf : ∀ b, f (f b).1 = ((f b).1, 0)) (l : List β) :
    ((((l.map f).map (·.1)).map f).map (·.1) = (l.map f).map (·.1))
    ∧ ((((l.map f).map (·.1)).map f).map (·.2)).sum = 0 := by
  induction l with
  | nil => simp
  | cons b l ih =>
    refine ⟨?_, ?_⟩
    · simp only [List.map_cons, List.cons.injEq]
      exact ⟨by rw [hf b], ih.1⟩
    · simp only [List.map_cons, List.sum_cons]
      rw [hf b]
      simpa using ih.2

/-- A second pass over one notifier changes nothing and counts zero. -/
theorem updateNotifier_idem (n : NotifierConfig) :
    updateNotifier (updateNotifier n).1 = ((updateNotifier n).1, 0) := by
  have h := second_pass_fixed updateSearch updateSearch_idem n.activeSearches
  show
    (NotifierConfig.mk
        ((((n.activeSearches.map updateSearch).map (·.1)).map
          updateSearch).map (·.1)) n.rest,
      ((((n.activeSearches.map updateSearch).map (·.1)).map
        updateSearch).map (·.2)).sum)
    = (NotifierConfig.mk ((n.activeSearches.map updateSearch).map (·.1))
        n.rest, 0)
  rw [h.1, h.2]

/-! ## Claims -/

set_option maxRecDepth 4000 in
/-- C2: For every command text, the router invokes exactly the first
registered handler whose pattern matches (the handlers awaited during the
routing loop are exactly the first match of the registration list, in
registration order, and no later-registered handler); in particular, with
patterns `^debug ` then `^d` registered in that order, the command
`debug reset` invokes the first handler and not the second — and matching
is case-insensitive and anchored at the start of the string. -/
theorem router_first_match :
    (∀ (handlers : Handlers) (behave : Nat → HOutcome) (mention cmd : String),
      invokedOf (routeCommand handlers behave mention cmd).1
        = ((handlers.find? fun p => p.1 cmd).map (·.2)).toList)
    ∧ (∀ (behave : Nat → HOutcome) (mention : String),
      invokedOf (routeCommand [(reMatchCI "^debug ", 1), (reMatchCI "^d", 2)]
        behave mention "debug reset").1 = [1])
    ∧ (∀ (behave : Nat → HOutcome) (mention : String),
      invokedOf (routeCommand [(reMatchCI "^debug ", 1), (reMatchCI "^d", 2)]
        behave mention "DEBUG reset").1 = [1])
    ∧ reMatchCI "^d" "xdebug reset" = false := by
  have main : ∀ (handlers : Handlers) (behave : Nat → HOutcome)
      (mention cmd : String),
      invokedOf (routeCommand handlers behave mention cmd).1
        = ((handlers.find? fun p => p.1 cmd).map (·.2)).toList := by
    intro handlers behave mention cmd
    induction handlers with
    | nil => simp [routeCommand, invokedOf]
    | cons q rest ih =>
      obtain ⟨p0, h0⟩ := q
      cases hp : p0 cmd with
      | true =>
        cases hb : behave h0 <;>
          simp [routeCommand, hp, hb, invokedOf, List.find?_cons]
      | false =>
        simpa [routeCommand, hp, List.find?_cons] using ih
  refine ⟨main, ?_, ?_, by decide⟩
  · intro behave mention
    rw [main]
    have h1 : reMatchCI "^debug " "debug reset" = true := by decide
    simp [List.find?_cons, h1]
  · intro behave mention
    rw [main]
    have h1 : reMatchCI "^debug " "DEBUG reset" = true := by decide
    simp [List.find?_cons, h1]

/-- C3: When the matched handler raises a non-cancellation exception, the
routing loop catches it, sends to the originating channel the error
message embedding the traceback truncated to its last characters — a
suffix of the traceback of length at most 1900 — and re-raises the
exception. -/
theorem router_error_boundary (handlers : Handlers)
    (behave : Nat → HOutcome) (mention cmd : String) (pat : String → Bool)
    (h : Nat) (tb : String)
    (hfind : handlers.find? (fun p => p.1 cmd) = some (pat, h))
    (herr : behave h = .error tb) :
    routeCommand handlers behave mention cmd
      = ([.invoked h, .sent (errText mention tb)], .raisedExn)
    ∧ sentOf (routeCommand handlers behave mention cmd).1
      = [errText mention tb]
    ∧ (pyTail 1900 tb).data.length ≤ 1900
    ∧ (pyTail 1900 tb).data <:+ tb.data := by
  have hroute := routeCommand_of_find_some handlers behave mention cmd
    pat h hfind
  rw [herr] at hroute
  refine ⟨hroute, ?_, ?_, ?_⟩
  · rw [hroute]; simp [sentOf]
  · rw [pyTail_data, List.length_drop]; omega
  · rw [pyTail_data]; exact List.drop_suffix _ _

/-- C3 witness. -/
theorem router_error_boundary_witness :
    routeCommand [(reMatchCI "^d", 7)] (fun _ => .error "boom") "<@1>" "d x"
      = ([.invoked 7, .sent (errText "<@1>" "boom")], .raisedExn)
    ∧ sentOf (routeCommand [(reMatchCI "^d", 7)] (fun _ => .error "boom")
        "<@1>" "d x").1 = [errText "<@1>" "boom"]
    ∧ (pyTail 1900 "boom").data.length ≤ 1900
    ∧ (pyTail 1900 "boom").data <:+ "boom".data :=
  router_error_boundary [(reMatchCI "^d", 7)] (fun _ => .error "boom")
    "<@1>" "d x" (reMatchCI "^d") 7 "boom" rfl rfl

/-- C4: When the matched handler raises `asyncio.CancelledError`, the
routing loop re-raises it unchanged and sends no message for it. -/
theorem router_cancellation (handlers : Handlers)
    (behave : Nat → HOutcome) (mention cmd : String) (pat : String → Bool)
    (h : Nat)
    (hfind : handlers.find? (fun p => p.1 cmd) = some (pat, h))
    (hc : behave h = .cancelled) :
    routeCommand handlers behave mention cmd = ([.invoked h], .raisedCancel)
    ∧ sentOf (routeCommand handlers behave mention cmd).1 = [] := by
  have hroute := routeCommand_of_find_some handlers behave mention cmd
    pat h hfind
  rw [hc] at hroute
  exact ⟨hroute, by rw [hroute]; simp [sentOf]⟩

/-- C4 witness. -/
theorem router_cancellation_witness :
    routeCommand [(reMatchCI "^d", 3)] (fun _ => .cancelled) "<@1>" "d x"
      = ([.invoked 3], .raisedCancel)
    ∧ sentOf (routeCommand [(reMatchCI "^d", 3)] (fun _ => .cancelled)
        "<@1>" "d x").1 = [] :=
  router_cancellation [(reMatchCI "^d", 3)] (fun _ => .cancelled)
    "<@1>" "d x" (reMatchCI "^d") 3 rfl rfl

/-- C5: When no registered pattern matches the command, routing is a
silent no-op: no handler is invoked, nothing is sent, nothing is raised. -/
theorem router_no_match (handlers : Handlers) (behave : Nat → HOutcome)
    (mention cmd : String)
    (hnone : ∀ p ∈ handlers, p.1 cmd = false) :
    routeCommand handlers behave mention cmd = ([], .returned) := by
  apply routeCommand_of_find_none
  exact List.find?_eq_none.mpr fun p hp => by simp [hnone p hp]

/-- C5 witness. -/
theorem router_no_match_witness :
    routeCommand [(reMatchCI "^debug ", 1), (reMatchCI "^d", 2)]
      (fun _ => .ok) "<@1>" "hello" = ([], .returned) :=
  router_no_match [(reMatchCI "^debug ", 1), (reMatchCI "^d", 2)]
    (fun _ => .ok) "<@1>" "hello"
    (by
      intro p hp
      simp only [List.mem_cons, List.not_mem_nil, or_false] at hp
      rcases hp with rfl | rfl
      · decide
      · decide)

/-- C9: A message authored by the bot's own user is dropped immediately:
no command extraction, no handler invocation, no reply — regardless of
the message's content or mentions. -/
theorem onMessage_own_message (bot : Bot) (handlers : Handlers)
    (behave : Nat → HOutcome) (msg : Message)
    (hown : bot.clientUser = some msg.author) :
    onMessage bot handlers behave msg = ([], .returned) := by
  simp [onMessage, hown]

/-- C9 witness: the dropped message both mentions the bot and starts with
the command marker. -/
theorem onMessage_own_message_witness :
    (Bot.mk (some 5) (some "$")).clientUser
      = some (Message.mk "$help" 5 true).author
    ∧ (Message.mk "$help" 5 true).mentionsBot = true
    ∧ onMessage (Bot.mk (some 5) (some "$"))
        [(reMatchCI "^help", 1)] (fun _ => .ok)
        (Message.mk "$help" 5 true) = ([], .returned) :=
  ⟨rfl, rfl,
    onMessage_own_message (Bot.mk (some 5) (some "$"))
      [(reMatchCI "^help", 1)] (fun _ => .ok)
      (Message.mk "$help" 5 true) rfl⟩

/-- C6: A reaction event invokes exactly the handler bound to the
reaction's message id, with the arguments `(action, reaction, user)`,
and is a no-op when no handler is bound to that id — in particular,
binding a handler to message 1 and delivering a reaction event for the
unrelated message 2 invokes nothing. -/
theorem reaction_dispatch :
    (∀ (reg : Registry) (a : ReactionAction) (r : Reaction) (u h : Nat),
      getKey? reg r.messageId = some h →
        onReactionChange reg a r u = [.rinvoked h a r u])
    ∧ (∀ (reg : Registry) (a : ReactionAction) (r : Reaction) (u : Nat),
      getKey? reg r.messageId = none → onReactionChange reg a r u = [])
    ∧ (∀ (a : ReactionAction) (u : Nat) (e : String),
      onReactionChange (bind [] 1 10) a ⟨2, e⟩ u = []) := by
  have hsome : ∀ (reg : Registry) (a : ReactionAction) (r : Reaction)
      (u h : Nat), getKey? reg r.messageId = some h →
      onReactionChange reg a r u = [.rinvoked h a r u] := by
    intro reg a r u h hget
    unfold onReactionChange
    rw [hasKey_eq_isSome_getKey, hget]
    simp
  have hnone : ∀ (reg : Registry) (a : ReactionAction) (r : Reaction)
      (u : Nat), getKey? reg r.messageId = none →
      onReactionChange reg a r u = [] := by
    intro reg a r u hget
    unfold onReactionChange
    rw [hasKey_eq_isSome_getKey, hget]
    simp
  exact ⟨hsome, hnone, fun a u e => hnone (bind [] 1 10) a ⟨2, e⟩ u rfl⟩

/-- C6 witness. -/
theorem reaction_dispatch_witness :
    getKey? ([(3, 9)] : Registry) (Reaction.mk 3 "star").messageId = some 9
    ∧ onReactionChange [(3, 9)] .added ⟨3, "star"⟩ 4
        = [.rinvoked 9 .added ⟨3, "star"⟩ 4]
    ∧ getKey? ([(3, 9)] : Registry) (Reaction.mk 5 "star").messageId = none
    ∧ onReactionChange [(3, 9)] .added ⟨5, "star"⟩ 4 = [] :=
  ⟨rfl, reaction_dispatch.1 [(3, 9)] .added ⟨3, "star"⟩ 4 9 rfl,
    rfl, reaction_dispatch.2.1 [(3, 9)] .added ⟨5, "star"⟩ 4 rfl⟩

/-- C7: The registry keeps at most one handler per message id (binding
preserves key uniqueness), and binding an already-bound id follows the
replace policy consistently: the new handler is the one found afterwards,
and bindings for every other message id are untouched (no
`DuplicateBindingError` exists in the code — the dict assignment is
last-bind-wins). -/
theorem registry_bind_policy :
    (∀ (reg : Registry) (mid h : Nat),
      (reg.map Prod.fst).Nodup → ((bind reg mid h).map Prod.fst).Nodup)
    ∧ (∀ (reg : Registry) (mid h : Nat),
      getKey? (bind reg mid h) mid = some h)
    ∧ (∀ (reg : Registry) (mid h mid2 : Nat), mid2 ≠ mid →
      getKey? (bind reg mid h) mid2 = getKey? reg mid2) :=
  ⟨fun reg mid h hd => setKey_keys_nodup reg mid h hd,
   fun reg mid h => getKey_setKey_self reg mid h,
   fun reg mid h mid2 hne => getKey_setKey_ne reg mid h mid2 hne⟩

/-- C7 witness: rebinding message id 1 replaces handler 5 by handler 7,
keeps keys unique, and leaves other ids unbound. -/
theorem registry_bind_policy_witness :
    (([(1, 5)] : Registry).map Prod.fst).Nodup
    ∧ ((bind [(1, 5)] 1 7).map Prod.fst).Nodup
    ∧ getKey? (bind [(1, 5)] 1 7) 1 = some 7
    ∧ getKey? (bind [(1, 5)] 1 7) 2 = getKey? [(1, 5)] 2 :=
  ⟨by decide, registry_bind_policy.1 [(1, 5)] 1 7 (by decide),
   registry_bind_policy.2.1 [(1, 5)] 1 7,
   registry_bind_policy.2.2 [(1, 5)] 1 7 2 (by decide)⟩

/-- C8: The migration converts every stored search spec of the prior
schema: a spec with a `"source"` key loses that key and gains
`"plugin_path"` set to `"plugins.craigslist.plugin:CraigslistPlugin"`
(which has the required namespace-colon-symbol shape), while a spec
without a `"source"` key is left unchanged; `update_notifiers` applies
exactly this transformation to every spec of every notifier's
`active_searches` list and `update_listings` to every listing's stored
spec. -/
theorem migration_schema :
    (∀ spec : Obj, hasKey spec "source" = true →
      hasKey (migrateSpec spec).1 "source" = false
      ∧ getKey? (migrateSpec spec).1 "plugin_path"
          = some (.str craigslistPluginPath)
      ∧ pluginPathShape craigslistPluginPath = true)
    ∧ (∀ spec : Obj, hasKey spec "source" = false →
      (migrateSpec spec).1 = spec)
    ∧ (∀ ns : List NotifierConfig,
      (updateNotifiers ns).1 = ns.map fun n =>
        NotifierConfig.mk
          (n.activeSearches.map fun s =>
            Search.mk (migrateSpec s.spec).1 s.rest)
          n.rest)
    ∧ (∀ ls : List DbListing,
      (updateListings ls).1 = ls.map fun l =>
        DbListing.mk (migrateSpec l.searchSpec).1) := by
  refine ⟨?_, ?_, ?_, ?_⟩
  · intro spec hk
    refine ⟨migrateSpec_no_source spec, ?_, by decide⟩
    unfold migrateSpec
    rw [if_pos hk]
    exact getKey_setKey_self _ _ _
  · intro spec hk
    unfold migrateSpec
    rw [hk]
    simp
  · intro ns
    show (ns.map updateNotifier).map (·.1) = _
    rw [List.map_map]
    apply List.map_congr_left
    intro n _
    show NotifierConfig.mk
      ((n.activeSearches.map updateSearch).map (·.1)) n.rest = _
    congr 1
    rw [List.map_map]
    apply List.map_congr_left
    intro s _
    rfl
  · intro ls
    show (ls.map fun l =>
      (DbListing.mk (migrateSpec l.searchSpec).1,
        if (migrateSpec l.searchSpec).2 then 1 else 0)).map (·.1) = _
    rw [List.map_map]
    apply List.map_congr_left
    intro l _
    rfl

/-- C8 witness: a prior-schema spec is converted, a current-schema spec
is untouched. -/
theorem migration_schema_witness :
    hasKey [("criteria", JVal.obj []), ("source", JVal.str "craigslist")]
      "source" = true
    ∧ (hasKey (migrateSpec
        [("criteria", JVal.obj []),
          ("source", JVal.str "craigslist")]).1 "source" = false
      ∧ getKey? (migrateSpec
          [("criteria", JVal.obj []),
            ("source", JVal.str "craigslist")]).1 "plugin_path"
          = some (.str craigslistPluginPath)
      ∧ pluginPathShape craigslistPluginPath = true)
    ∧ (migrateSpec [("criteria", JVal.obj []),
        ("plugin_path", JVal.str craigslistPluginPath)]).1
      = [("criteria", JVal.obj []),
          ("plugin_path", JVal.str craigslistPluginPath)] :=
  ⟨rfl, migration_schema.1 _ rfl, migration_schema.2.1 _ rfl⟩

/-- C10: The migration's per-spec transformation is idempotent — a spec
it has already converted (one without a `"source"` key) is unchanged —
so a second run of `update_notifiers` and of `update_listings` updates
zero records and leaves every stored notifier config and listing spec
equal to its value after the first run. -/
theorem migration_idempotent :
    (∀ spec : Obj,
      migrateSpec (migrateSpec spec).1 = ((migrateSpec spec).1, false))
    ∧ (∀ ns : List NotifierConfig,
      updateNotifiers (updateNotifiers ns).1 = ((updateNotifiers ns).1, 0))
    ∧ (∀ ls : List DbListing,
      updateListings (updateListings ls).1 = ((updateListings ls).1, 0)) := by
  refine ⟨migrateSpec_idem, ?_, ?_⟩
  · intro ns
    have h := second_pass_fixed updateNotifier updateNotifier_idem ns
    show
      ((((ns.map updateNotifier).map (·.1)).map updateNotifier).map (·.1),
        ((((ns.map updateNotifier).map (·.1)).map
          updateNotifier).map (·.2)).sum)
      = ((ns.map updateNotifier).map (·.1), 0)
    rw [h.1, h.2]
  · intro ls
    have h := second_pass_fixed
      (fun l : DbListing =>
        (DbListing.mk (migrateSpec l.searchSpec).1,
          if (migrateSpec l.searchSpec).2 then 1 else 0))
      (fun l => by simp [migrateSpec_idem]) ls
    show
      ((((ls.map fun l : DbListing =>
          (DbListing.mk (migrateSpec l.searchSpec).1,
            if (migrateSpec l.searchSpec).2 then 1 else 0)).map (·.1)).map
        (fun l : DbListing =>
          (DbListing.mk (migrateSpec l.searchSpec).1,
            if (migrateSpec l.searchSpec).2 then 1 else 0))).map (·.1),
        ((((ls.map fun l : DbListing =>
          (DbListing.mk (migrateSpec l.searchSpec).1,
            if (migrateSpec l.searchSpec).2 then 1 else 0)).map (·.1)).map
        (fun l : DbListing =>
          (DbListing.mk (migrateSpec l.searchSpec).1,
            if (migrateSpec l.searchSpec).2 then 1 else 0))).map (·.2)).sum)
      = ((ls.map fun l : DbListing =>
          (DbListing.mk (migrateSpec l.searchSpec).1,
            if (migrateSpec l.searchSpec).2 then 1 else 0)).map (·.1), 0)
    rw [h.1, h.2]

/-- The seen-set only grows along a matching run. -/
theorem matchRun_seen_mono (spec : SearchSpec) (raw : List RawListing) :
    ∀ (st : MatchState) (x : String), x ∈ st.seen →
      x ∈ (raw.foldl (matchStep spec) st).seen := by
  induction raw with
  | nil => intro st x hx; exact hx
  | cons r raw ih =>
    intro st x hx
    rw [List.foldl_cons]
    apply ih
    unfold matchStep
    cases r.sourceId with
    | none => exact hx
    | some sid =>
      by_cases hm : sid ∈ st.seen
      · simpa [hm] using hx
      · simp [hm, List.mem_cons]
        exact Or.inr hx

/-- After a matching run, every well-formed identifier of the batch is in
the seen-set. -/
theorem matchRun_ids_seen (spec : SearchSpec) (raw : List RawListing) :
    ∀ (st : MatchState) (r : RawListing) (sid : String), r ∈ raw →
      r.sourceId = some sid →
      sid ∈ (raw.foldl (matchStep spec) st).seen := by
  induction raw with
  | nil => intro st r sid h; cases h
  | cons r0 raw ih =>
    intro st r sid hmem hsid
    rcases List.mem_cons.mp hmem with rfl | hmem2
    · rw [List.foldl_cons]
      apply matchRun_seen_mono
      unfold matchStep
      rw [hsid]
      by_cases hm : sid ∈ st.seen
      · simp [hm]
      · simp [hm]
    · rw [List.foldl_cons]
      exact ih (matchStep spec st r0) r sid hmem2 hsid

/-- A matching run whose batch identifiers are all already seen produces
no new novel listings. -/
theorem matchRun_novel_stable (spec : SearchSpec) (raw : List RawListing) :
    ∀ (st : MatchState),
      (∀ r ∈ raw, ∀ sid : String, r.sourceId = some sid → sid ∈ st.seen) →
      (raw.foldl (matchStep spec) st).novel = st.novel := by
  induction raw with
  | nil => intro st _; rfl
  | cons r0 raw ih =>
    intro st hall
    rw [List.foldl_cons]
    cases hsid : r0.sourceId with
    | none =>
      have hstep : matchStep spec st r0
          = { st with skipped := st.skipped + 1 } := by
        simp [matchStep, hsid]
      rw [hstep]
      exact ih _ fun r hr sid hs =>
        hall r (List.mem_cons_of_mem _ hr) sid hs
    | some sid =>
      have hmem : sid ∈ st.seen := hall r0 (List.mem_cons_self _ _) sid hsid
      have hstep : matchStep spec st r0 = st := by
        simp [matchStep, hsid, hmem]
      rw [hstep]
      exact ih st fun r hr sid2 hs =>
        hall r (List.mem_cons_of_mem _ hr) sid2 hs

/-- A matching run never emits a listing whose identifier was in a set
contained in the starting seen-set. -/
theorem matchRun_novel_fresh (spec : SearchSpec) (raw : List RawListing)
    (seen0 : List String) :
    ∀ (st : MatchState),
      (∀ l ∈ st.novel, l.sourceId ∉ seen0) →
      (∀ x ∈ seen0, x ∈ st.seen) →
      ∀ l ∈ (raw.foldl (matchStep spec) st).novel, l.sourceId ∉ seen0 := by
  induction raw with
  | nil => intro st h1 _ l hl; exact h1 l hl
  | cons r0 raw ih =>
    intro st h1 h2
    rw [List.foldl_cons]
    cases hsid : r0.sourceId with
    | none =>
      have hstep : matchStep spec st r0
          = { st with skipped := st.skipped + 1 } := by
        simp [matchStep, hsid]
      rw [hstep]
      exact ih _ h1 h2
    | some sid =>
      by_cases hm : sid ∈ st.seen
      · have hstep : matchStep spec st r0 = st := by
          simp [matchStep, hsid, hm]
        rw [hstep]
        exact ih st h1 h2
      · have hstep : matchStep spec st r0
            = { st with novel := st.novel ++ [⟨spec, sid, r0.attrs⟩],
                        seen := sid :: st.seen } := by
          simp [matchStep, hsid, hm]
        rw [hstep]
        apply ih
        · intro l hl
          rcases List.mem_append.mp hl with h | h
          · exact h1 l h
          · have hl2 : l = ⟨spec, sid, r0.attrs⟩ := by simpa using h
            subst hl2
            intro hmem0
            exact hm (h2 sid hmem0)
        · intro x hx
          exact List.mem_cons_of_mem _ (h2 x hx)

/-- C1: Running the Matching Engine a second time on the identical raw
batch, starting from the seen-set the first run produced, yields the
empty novel sequence; and no listing whose source-native identifier is
already in the seen-set is ever re-emitted for the spec. -/
theorem matching_engine_idempotent :
    (∀ (spec : SearchSpec) (raw : List RawListing) (seen : List String),
      (matchEngine spec raw (matchEngine spec raw seen).seen).novel = [])
    ∧ (∀ (spec : SearchSpec) (raw : List RawListing) (seen : List String),
      ∀ l ∈ (matchEngine spec raw seen).novel, l.sourceId ∉ seen) := by
  constructor
  · intro spec raw seen
    unfold matchEngine
    apply matchRun_novel_stable
    intro r hr sid hsid
    exact matchRun_ids_seen spec raw _ r sid hr hsid
  · intro spec raw seen
    unfold matchEngine
    exact matchRun_novel_fresh spec raw seen _ (by simp) (fun x hx => hx)

/-- C1 witness: with seen-set `["b"]`, a batch carrying the fresh
identifier `123` is emitted once and never again on the second run. -/
theorem matching_engine_idempotent_witness :
    (matchEngine ⟨[], "p:C"⟩ [⟨some "123", []⟩]
      (matchEngine ⟨[], "p:C"⟩ [⟨some "123", []⟩] ["b"]).seen).novel = []
    ∧ (⟨⟨[], "p:C"⟩, "123", []⟩ : Listing)
        ∈ (matchEngine ⟨[], "p:C"⟩ [⟨some "123", []⟩] ["b"]).novel
    ∧ "123" ∉ ["b"] :=
  ⟨matching_engine_idempotent.1 ⟨[], "p:C"⟩ [⟨some "123", []⟩] ["b"],
   by decide,
   matching_engine_idempotent.2 ⟨[], "p:C"⟩ [⟨some "123", []⟩] ["b"]
     ⟨⟨[], "p:C"⟩, "123", []⟩ (by decide)⟩

end Moobot
